import Mathlib

/-!
Verification model of the OpenMDAO unit-conversion engine
(`openmdao/utils/units.py`).

The Python module is shallowly embedded as follows:
* Python floats are modelled as exact rationals (`ℚ`); every numeric claim
  below is settled in exact arithmetic, which is the reading the spec
  itself gives for its algebraic properties.
* `NumberDict` (an `OrderedDict` with default value 0) is modelled as an
  association list `List (String × ℚ)` whose update operation preserves the
  position of an existing key, mirroring `OrderedDict` insertion-order
  semantics.
* Python exceptions are modelled by `Except UnitsError`; each constructor
  of `UnitsError` names the exception the source raises
  (`TypeError` for incompatible operations / unsupported exponents,
  `KeyError` for duplicate definitions, `ValueError` for unknown units and
  unresolved definitions, `NameError` from `eval` on an unknown
  identifier, `ZeroDivisionError` from division by zero).
-/

/-- Error kinds of the engine; each models a concrete Python exception site
in `openmdao/utils/units.py`. -/
inductive UnitsError where
  /-- `TypeError('Incompatible units')` or the nonzero-offset `TypeError`s
  in `__mul__` / `__div__` / `__pow__` / `__lt__`. -/
  | incompatibleOperation
  /-- `TypeError('Only integer and inverse integer exponents allowed')`. -/
  | unsupportedExponent
  /-- `KeyError("Unit %s already defined with different factor or powers")`. -/
  | duplicateUnitConflict
  /-- `ValueError("no unit named '%s' is defined")` in `_find_unit`. -/
  | unknownUnit (tok : String)
  /-- Python `NameError` raised by `eval` on an identifier that is not in
  the evaluation namespace. -/
  | nameError
  /-- `ValueError('The following units were not defined ...')` at the end
  of `_update_library`, carrying the names of the stuck records. -/
  | unresolvedUnits (names : List String)
  /-- Python `ZeroDivisionError` (division or modulo by zero). -/
  | zeroDivisionError
  /-- `TypeError(str(unit) + ' is not a unit')` in `_find_unit`, and the
  `AttributeError` from `set_name` on a non-unit value in `add_unit`. -/
  | notAUnit
  /-- Python `TypeError` for an unsupported operand pairing (e.g. a number
  raised to a unit). -/
  | unsupportedOperand
  deriving Repr, DecidableEq

/-- Lookup in an association list: the value at the first matching key.
Models Python `dict.__getitem__` / `in` on the dictionaries of the source
(which hold each key at most once). -/
def dictGet {α β : Type} [DecidableEq α] : List (α × β) → α → Option β
  | [], _ => none
  | p :: rest, k => if p.1 = k then some p.2 else dictGet rest k

/-- Update in an association list: replace the value at an existing key in
place (keeping its position, as `OrderedDict` does) or append a new binding.
Models Python `dict.__setitem__`. -/
def dictSet {α β : Type} [DecidableEq α] (l : List (α × β)) (k : α) (v : β) :
    List (α × β) :=
  if (dictGet l k).isSome then
    l.map (fun p => if p.1 = k then (k, v) else p)
  else
    l ++ [(k, v)]

/-- NumberDict: a dictionary from name components to numeric exponents in
which a missing key reads as 0 (`NumberDict.__getitem__`). -/
abbrev NumberDict := List (String × ℚ)

/-- Read with default 0, as `NumberDict.__getitem__` does. -/
def NumberDict.get (d : NumberDict) (k : String) : ℚ :=
  (dictGet d k).getD 0

/-- NumberDict addition (`__add__`): start from a copy of `self`, then for
every binding of `other` add its value onto the (defaulted) entry. -/
def NumberDict.add (d e : NumberDict) : NumberDict :=
  e.foldl (fun acc kv => dictSet acc kv.1 (NumberDict.get acc kv.1 + kv.2)) d

/-- NumberDict subtraction (`__sub__`): copy of `self`, minus `other`'s
values. `__rsub__ self other` is `NumberDict.sub other self`. -/
def NumberDict.sub (d e : NumberDict) : NumberDict :=
  e.foldl (fun acc kv => dictSet acc kv.1 (NumberDict.get acc kv.1 - kv.2)) d

/-- Scalar multiple of a NumberDict (`__mul__` / `__rmul__` with a
number): every stored value is scaled, keys and order kept. -/
def NumberDict.smul (c : ℚ) (d : NumberDict) : NumberDict :=
  d.map (fun kv => (kv.1, c * kv.2))

/-- Division of a NumberDict by a scalar (`__div__`). -/
def NumberDict.divBy (d : NumberDict) (c : ℚ) : NumberDict :=
  d.map (fun kv => (kv.1, kv.2 / c))

/-- Textual form of a number used as a dictionary key (`str(other)` in the
scalar branches of `__mul__` / `__div__` and the synthesized names of
`__pow__`). The exact digits differ from CPython's float formatting; no
operation of the engine ever inspects this text, it is only a display key. -/
def floatStr (q : ℚ) : String := toString q

/-- PhysicalUnit: display-name map, multiplicative factor, powers over the
base dimensions, and additive offset, exactly the four attributes of the
Python class. `powers` holds rationals because Python true division in
`__pow__` (`x / rounded`) turns the integer entries into floats. -/
structure PhysicalUnit where
  names : NumberDict
  factor : ℚ
  powers : List ℚ
  offset : ℚ
  deriving Repr, DecidableEq

/-- `set_name`: replace the whole name map with the single binding
`name ↦ 1`. -/
def PhysicalUnit.set_name (u : PhysicalUnit) (name : String) : PhysicalUnit :=
  ⟨[(name, 1)], u.factor, u.powers, u.offset⟩

/-- `__mul__` on two units: rejects a nonzero offset on either operand,
otherwise sums names and powers and multiplies factors (offset of the
result is the constructor default 0). -/
def PhysicalUnit.mul (a b : PhysicalUnit) : Except UnitsError PhysicalUnit :=
  if a.offset ≠ 0 ∨ b.offset ≠ 0 then .error .incompatibleOperation
  else .ok ⟨NumberDict.add a.names b.names, a.factor * b.factor,
            List.zipWith (· + ·) a.powers b.powers, 0⟩

/-- `__mul__` with a scalar operand (also `__rmul__`): rejects a nonzero
offset on the unit, extends the name map with `str(other) ↦ 1`, scales the
factor, keeps the powers; the offset argument `self._offset * other` is
always 0 on this path because of the guard. -/
def PhysicalUnit.mulScalar (a : PhysicalUnit) (c : ℚ) :
    Except UnitsError PhysicalUnit :=
  if a.offset ≠ 0 then .error .incompatibleOperation
  else .ok ⟨NumberDict.add a.names [(floatStr c, 1)], a.factor * c,
            a.powers, a.offset * c⟩

/-- `__div__` on two units: offset check, then difference of names and
powers and quotient of factors; `self._factor / other._factor` raises a
Python `ZeroDivisionError` when the divisor unit has factor 0. -/
def PhysicalUnit.div (a b : PhysicalUnit) : Except UnitsError PhysicalUnit :=
  if a.offset ≠ 0 ∨ b.offset ≠ 0 then .error .incompatibleOperation
  else if b.factor = 0 then .error .zeroDivisionError
  else .ok ⟨NumberDict.sub a.names b.names, a.factor / b.factor,
            List.zipWith (· - ·) a.powers b.powers, 0⟩

/-- `__div__` with a scalar divisor: offset check, then
`self._factor / float(other)` (a Python `ZeroDivisionError` when the
divisor is 0) with the name map extended at exponent −1. -/
def PhysicalUnit.divScalar (a : PhysicalUnit) (c : ℚ) :
    Except UnitsError PhysicalUnit :=
  if a.offset ≠ 0 then .error .incompatibleOperation
  else if c = 0 then .error .zeroDivisionError
  else .ok ⟨NumberDict.add a.names [(floatStr c, -1)], a.factor / c,
            a.powers, 0⟩

/-- `__rdiv__` (scalar divided by unit): negates powers, subtracts the name
map from `str(other) ↦ 1` via `NumberDict.__rsub__`, and divides the scalar
by the factor. Note: the source performs no offset check on this path. -/
def PhysicalUnit.rdiv (c : ℚ) (a : PhysicalUnit) :
    Except UnitsError PhysicalUnit :=
  if a.factor = 0 then .error .zeroDivisionError
  else .ok ⟨NumberDict.sub [(floatStr c, 1)] a.names, c / a.factor,
            a.powers.map (fun x => -x), 0⟩

/-- Integer k-th root by bounded search; `some r` exactly when `r ^ k = a`. -/
def natKthRoot (a k : ℕ) : Option ℕ :=
  (List.range (a + 2)).find? (fun r => r ^ k == a)

/-- Signed integer k-th root (odd roots of negatives allowed). -/
def intKthRoot (a : ℤ) (k : ℕ) : Option ℤ :=
  if 0 ≤ a then (natKthRoot a.toNat k).map (fun r => (r : ℤ))
  else if k % 2 = 1 then (natKthRoot (-a).toNat k).map (fun r => -(r : ℤ))
  else none

/-- Exact rational k-th root when one exists. -/
def ratKthRoot (f : ℚ) (k : ℕ) : Option ℚ :=
  match intKthRoot f.num k, natKthRoot f.den k with
  | some n, some d => some ((n : ℚ) / (d : ℚ))
  | _, _ => none

/-- Value of Python float exponentiation `f ** n` on its non-raising
domain (the raising cases are modelled separately by `pyFloatPow`, which
every call site goes through): exact for an integer-valued exponent; for a
fractional exponent `n` it returns the exact value `(f ^ n.num)` root
`n.den` when that value is rational, which covers every input whose float
result is exact. When the true result is irrational it lies outside any
exact rational model and the function is totalized with 0; no theorem
below depends on that value other than by naming it. -/
def qPow (f n : ℚ) : ℚ :=
  if n.den = 1 then f ^ n.num
  else ((ratKthRoot (f ^ n.num) n.den).getD 0)

/-- Python (2) float exponentiation `f ** n` with its error paths: a zero
base with a negative exponent raises `ZeroDivisionError`, and a negative
base with a non-integer-valued exponent raises `ValueError` (modelled as
`unsupportedOperand`); otherwise the value is `qPow f n`. This models the
`self._factor**other` at line 419 of the source as well as the numeric
`**` of the expression evaluator. -/
def pyFloatPow (f n : ℚ) : Except UnitsError ℚ :=
  if f = 0 ∧ n < 0 then .error .zeroDivisionError
  else if f < 0 ∧ n.den ≠ 1 then .error .unsupportedOperand
  else .ok (qPow f n)

/-- `int(floor(q + 0.5))`, the rounding used on the reciprocal exponent in
`__pow__`. -/
def pyRound (q : ℚ) : ℤ := ⌊q + 1 / 2⌋

/-- Python `x % k == 0` for a float `x` and nonzero integer `k`: true
exactly when `x` is an integer multiple of `k`. -/
def qIsMultiple (x : ℚ) (k : ℤ) : Bool := (x / (k : ℚ)).den == 1

/-- Synthetic name map built in the fractional branch of `__pow__` when the
name exponents are not divisible: `str(f) ↦ 1` when the factor `f` differs
from 1, then each base-dimension name bound to its new power (zero powers
included, exactly as the source stores them). -/
def synthNames (f : ℚ) (p : List ℚ) (bn : List String) : NumberDict :=
  (p.zip bn).foldl (fun acc xp => dictSet acc xp.2 xp.1)
    (if f ≠ 1 then [(floatStr f, 1)] else [])

/-- Python numbers as they reach `__pow__`: `isinstance(other, int)` versus
`isinstance(other, float)` dispatch is semantic in the source, so the model
keeps the tag. -/
inductive PyNum where
  | int (z : ℤ)
  | float (q : ℚ)
  deriving Repr, DecidableEq

/-- Numeric value of a Python number. -/
def pyNumQ : PyNum → ℚ
  | .int z => (z : ℚ)
  | .float q => q

/-- The float-exponent branch of `__pow__` (split out of
`PhysicalUnit.pow` for proof convenience; it is the code from
`inv_exp = 1. / other` to the final `raise`): take the reciprocal
(`ZeroDivisionError` on exponent 0), round it half-up, demand the rounding
be within `1e-10` of the reciprocal, then demand every power be a multiple
of the rounding (Python `% 0` raises `ZeroDivisionError` when the rounding
is 0 and a power or name entry exists, and succeeds vacuously when both are
empty); once the divisibility test passes, `f = self._factor**other` is
computed — `pyFloatPow` models its error paths (zero factor with negative
exponent, negative factor with fractional exponent) — then powers are
divided, and names are divided when their exponents divide or replaced by
a synthetic map otherwise. Any other exponent raises the `TypeError`
modelled as `unsupportedExponent`. (The `rounded = 0` corner on the
empty unit also reaches the factor exponentiation — `all([])` is true —
so it, too, goes through `pyFloatPow`.) -/
def powFloat (bn : List String) (a : PhysicalUnit) (q : ℚ) :
    Except UnitsError PhysicalUnit :=
  if q = 0 then .error .zeroDivisionError
  else
    let invExp : ℚ := 1 / q
    let rounded : ℤ := pyRound invExp
    if |invExp - (rounded : ℚ)| < 1 / 10 ^ 10 then
      if rounded = 0 then
        if a.powers = [] ∧ a.names = [] then
          (pyFloatPow a.factor q).map (fun f => ⟨[], f, [], 0⟩)
        else .error .zeroDivisionError
      else if a.powers.all (fun x => qIsMultiple x rounded) then
        match pyFloatPow a.factor q with
        | .error e => .error e
        | .ok f =>
            let p := a.powers.map (fun x => x / (rounded : ℚ))
            let names :=
              if a.names.all (fun kv => qIsMultiple kv.2 rounded) then
                NumberDict.divBy a.names (rounded : ℚ)
              else synthNames f p bn
            .ok ⟨names, f, p, 0⟩
      else .error .unsupportedExponent
    else .error .unsupportedExponent

/-- `__pow__`. `bn` is `_UNIT_LIB.base_names`, the module-global list the
source reads when synthesizing names. Offset guard first; integer
exponents scale names, factor and powers (`pow(self._factor, other)`
raises `ZeroDivisionError` for a zero factor with a negative exponent);
float exponents continue in `powFloat`. -/
def PhysicalUnit.pow (bn : List String) (a : PhysicalUnit) (other : PyNum) :
    Except UnitsError PhysicalUnit :=
  if a.offset ≠ 0 then .error .incompatibleOperation
  else match other with
  | .int z =>
      if a.factor = 0 ∧ z < 0 then .error .zeroDivisionError
      else
        .ok ⟨NumberDict.smul (z : ℚ) a.names, a.factor ^ z,
             a.powers.map (fun x => x * (z : ℚ)), 0⟩
  | .float q => powFloat bn a q

/-- `conversion_tuple_to`: identical powers required, then the pair
`(factor, offset)` with `factor = self._factor / other._factor` and
`offset = self._offset - other._offset * other._factor / self._factor`.
The two divisions raise `ZeroDivisionError` in Python on a zero factor:
the `factor` line runs first, so a zero `other._factor` raises before a
zero `self._factor` does (the `offset` line divides by `self._factor`
even when `other._offset` is 0, since `0.0 / 0.0` still raises). -/
def PhysicalUnit.conversion_tuple_to (a b : PhysicalUnit) :
    Except UnitsError (ℚ × ℚ) :=
  if a.powers ≠ b.powers then .error .incompatibleOperation
  else if b.factor = 0 then .error .zeroDivisionError
  else if a.factor = 0 then .error .zeroDivisionError
  else .ok (a.factor / b.factor,
            a.offset - b.offset * b.factor / a.factor)

/-- `is_compatible`: equality of the powers vectors. -/
def PhysicalUnit.is_compatible (a b : PhysicalUnit) : Bool :=
  decide (a.powers = b.powers)

/-- `is_dimensionless`: no nonzero entry in `powers`. -/
def PhysicalUnit.is_dimensionless (a : PhysicalUnit) : Bool :=
  a.powers.all (fun x => decide (x = 0))

/-- Value of `x` expressed in unit `u`, rewritten in base units. This is the
semantics the source documents for its conversion tuples in the comment
block of `conversion_tuple_to`: `(x + d1) * s1` converts a value from
`self` to base units, where `(s1, d1)` is `(factor, offset)`. -/
def toBaseValue (u : PhysicalUnit) (x : ℚ) : ℚ := (x + u.offset) * u.factor

/-- The unit registry: ordered base-dimension names (`base_names`), the
dimension-name-to-index map (`base_types`), the prefix-multiplier table and
the unit table, as set up on `_UNIT_LIB` by `import_library`. The `help`
list and the `ConfigParser` mirror (`_UNIT_LIB.set('units', ...)`) carry
only documentation strings and are not modelled. -/
structure UnitLib where
  baseNames : List String
  baseTypes : List (String × ℕ)
  prefixes : List (String × ℚ)
  unitTable : List (String × PhysicalUnit)
  deriving Repr, DecidableEq

/-- `is_angle`: the power at the registered angle index is 1 and the sum of
all powers is 1. The angle base type is required at library load, so the
lookup cannot miss in a loaded registry; the model returns `false` in that
impossible case rather than modelling the `KeyError`. Out-of-range indices
(impossible for a registry-built unit) read as 0. -/
def is_angle (lib : UnitLib) (u : PhysicalUnit) : Bool :=
  match dictGet lib.baseTypes "angle" with
  | some i => decide (u.powers.getD i 0 = 1) && decide (u.powers.sum = 1)
  | none => false

/-- Unit expressions as evaluated by the sandboxed `eval` calls: the
grammar actually used by unit definitions and lookup strings — identifiers,
integer and float literals, `*`, `/` and `**` (spec section 4.3). -/
inductive UExpr where
  | ident (s : String)
  | inum (z : ℤ)
  | fnum (q : ℚ)
  | emul (a b : UExpr)
  | ediv (a b : UExpr)
  | epow (a b : UExpr)
  deriving Repr, DecidableEq

/-- The exact rational value of the IEEE-754 double `math.pi` that the
source injects into the `eval` globals of `add_unit`. -/
def piFloat : ℚ := 884279719003555 / 281474976710656

/-- Values a sandboxed `eval` can produce: Python numbers or units. -/
inductive PyVal where
  | num (n : PyNum)
  | unit (u : PhysicalUnit)
  deriving Repr, DecidableEq

/-- Python numeric multiplication: int times int stays int, anything else
is float. -/
def numMul (a b : PyNum) : PyNum :=
  match a, b with
  | .int x, .int y => .int (x * y)
  | _, _ => .float (pyNumQ a * pyNumQ b)

/-- Python numeric true division (the module imports `division` from
`__future__`): always float, `ZeroDivisionError` on a zero divisor. -/
def numDiv (a b : PyNum) : Except UnitsError PyNum :=
  if pyNumQ b = 0 then .error .zeroDivisionError
  else .ok (.float (pyNumQ a / pyNumQ b))

/-- Python numeric exponentiation: int to a nonnegative int is int, int to
a negative int is float, float operands give float with the error paths of
`pyFloatPow` (zero to a negative power raises `ZeroDivisionError`, a
negative base to a fractional power raises the Python 2 `ValueError`). -/
def numPow (a b : PyNum) : Except UnitsError PyNum :=
  match a, b with
  | .int x, .int y =>
      if 0 ≤ y then .ok (.int (x ^ y.toNat))
      else if x = 0 then .error .zeroDivisionError
      else .ok (.float ((x : ℚ) ^ y))
  | _, _ => (pyFloatPow (pyNumQ a) (pyNumQ b)).map .float

/-- Dispatch of `*` during `eval`: unit algebra for unit operands
(`__mul__` / `__rmul__`), plain arithmetic for numbers. -/
def pyMul (a b : PyVal) : Except UnitsError PyVal :=
  match a, b with
  | .unit u, .unit v => (PhysicalUnit.mul u v).map .unit
  | .unit u, .num n => (PhysicalUnit.mulScalar u (pyNumQ n)).map .unit
  | .num n, .unit u => (PhysicalUnit.mulScalar u (pyNumQ n)).map .unit
  | .num m, .num n => .ok (.num (numMul m n))

/-- Dispatch of `/` during `eval`: `__div__` / `__rdiv__` for units, float
division for numbers. -/
def pyDiv (a b : PyVal) : Except UnitsError PyVal :=
  match a, b with
  | .unit u, .unit v => (PhysicalUnit.div u v).map .unit
  | .unit u, .num n => (PhysicalUnit.divScalar u (pyNumQ n)).map .unit
  | .num n, .unit u => (PhysicalUnit.rdiv (pyNumQ n) u).map .unit
  | .num m, .num n => (numDiv m n).map .num

/-- Dispatch of `**` during `eval`: `__pow__` for a unit base (with the
offset guard firing before the operand-type check, as in the source);
a number raised to a unit has no implementation and raises `TypeError`. -/
def pyPow (bn : List String) (a b : PyVal) : Except UnitsError PyVal :=
  match a, b with
  | .unit u, .num n => (PhysicalUnit.pow bn u n).map .unit
  | .unit u, .unit _ =>
      if u.offset ≠ 0 then .error .incompatibleOperation
      else .error .unsupportedExponent
  | .num _, .unit _ => .error .unsupportedOperand
  | .num m, .num n => (numPow m n).map .num

/-- The sandboxed `eval` over the unit table. Identifier lookup models the
namespace search of `eval(expr, globals, _UNIT_LIB.unit_table)`: the unit
table (locals) first, then — only for the `add_unit` call site, which puts
`pi` in its globals (`allowPi = true`) — the constant `pi`; any other miss
is a `NameError`. `_find_unit`'s eval calls pass no `pi` (`allowPi =
false`). Operands evaluate left to right, the first exception
propagating. -/
def evalExpr (allowPi : Bool) (lib : UnitLib) : UExpr → Except UnitsError PyVal
  | .ident s =>
      match dictGet lib.unitTable s with
      | some u => .ok (.unit u)
      | none =>
          if allowPi ∧ s = "pi" then .ok (.num (.float piFloat))
          else .error .nameError
  | .inum z => .ok (.num (.int z))
  | .fnum q => .ok (.num (.float q))
  | .emul a b => do pyMul (← evalExpr allowPi lib a) (← evalExpr allowPi lib b)
  | .ediv a b => do pyDiv (← evalExpr allowPi lib a) (← evalExpr allowPi lib b)
  | .epow a b => do pyPow lib.baseNames (← evalExpr allowPi lib a) (← evalExpr allowPi lib b)

/-- `add_unit` after its expression argument has been evaluated to a unit
object: `set_name`, then the duplicate check comparing only factor and
powers against an existing entry (raising the `KeyError` modelled as
`duplicateUnitConflict` on a mismatch), then unconditional assignment into
the unit table. The `help`-comment bookkeeping is not modelled. -/
def add_unit (lib : UnitLib) (name : String) (u0 : PhysicalUnit) :
    Except UnitsError UnitLib :=
  let u := u0.set_name name
  match dictGet lib.unitTable name with
  | some old =>
      if old.factor ≠ u.factor ∨ old.powers ≠ u.powers then
        .error .duplicateUnitConflict
      else .ok { lib with unitTable := dictSet lib.unitTable name u }
  | none => .ok { lib with unitTable := dictSet lib.unitTable name u }

/-- The `isinstance(unit, PhysicalUnit)` check at the end of `_find_unit`
(`TypeError` on a non-unit value), also standing in for the
`AttributeError` that `set_name` on a non-unit raises in `add_unit`. -/
def checkIsUnit (v : PyVal) : Except UnitsError PhysicalUnit :=
  match v with
  | .unit u => .ok u
  | .num _ => .error .notAUnit

/-- Identifier occurrences of an expression in left-to-right order. The
source obtains these by running the regex `[A-Z,a-z]{1}[A-Z,a-z,0-9]*` over
the raw expression text; on the identifier grammar of unit expressions that
scan returns exactly the identifier occurrences in order, which is what
this computes on the embedded syntax tree. -/
def identsOf : UExpr → List String
  | .ident s => [s]
  | .inum _ => []
  | .fnum _ => []
  | .emul a b => identsOf a ++ identsOf b
  | .ediv a b => identsOf a ++ identsOf b
  | .epow a b => identsOf a ++ identsOf b

/-- Python slice `s[:n]` (clamping, as Python does). -/
def strTake (s : String) (n : ℕ) : String := ⟨s.data.take n⟩

/-- Python slice `s[n:]` (clamping, as Python does). -/
def strDrop (s : String) (n : ℕ) : String := ⟨s.data.drop n⟩

/-- One token of the prefix-synthesis loop of `_find_unit`: if the token
evaluates against the current table it is left alone; otherwise try a
1-character prefix with the rest a known unit, then a 2-character prefix;
on a successful split, register `prefix_multiplier * suffix_unit` under the
whole token via `add_unit`; otherwise raise the `ValueError` modelled as
`unknownUnit`. -/
def synthToken (lib : UnitLib) (item : String) : Except UnitsError UnitLib :=
  match evalExpr false lib (.ident item) with
  | .ok _ => .ok lib
  | .error _ =>
      match dictGet lib.prefixes (strTake item 1),
            dictGet lib.unitTable (strDrop item 1) with
      | some m, some su => (PhysicalUnit.mulScalar su m).bind (add_unit lib item)
      | _, _ =>
          match dictGet lib.prefixes (strTake item 2),
                dictGet lib.unitTable (strDrop item 2) with
          | some m, some su => (PhysicalUnit.mulScalar su m).bind (add_unit lib item)
          | _, _ => .error (.unknownUnit item)

/-- The full token loop of `_find_unit` over the identifiers of the
expression. -/
def synthAll (lib : UnitLib) : List String → Except UnitsError UnitLib
  | [] => .ok lib
  | t :: ts => (synthToken lib t).bind (fun lib2 => synthAll lib2 ts)

/-- The expression cache `_UNIT_CACHE`, keyed by the (trimmed) expression. -/
abbrev UCache := List (UExpr × PyVal)

/-- `_find_unit`: cache lookup first; then a direct `eval`; on any failure
the prefix-synthesis pass over every token followed by a second `eval`
whose failure propagates; the result is cached and must be a
`PhysicalUnit`. The source mutates the registry in place, so units
synthesized before a late failure persist there, and a non-unit value is
cached before the final type check raises; this model returns state only on
success, and no claim below depends on the state after a failure. -/
def find_unit (lib : UnitLib) (cache : UCache) (e : UExpr) :
    Except UnitsError (PhysicalUnit × UnitLib × UCache) :=
  match dictGet cache e with
  | some v => (checkIsUnit v).map (fun u => (u, lib, cache))
  | none =>
      match evalExpr false lib e with
      | .ok v => (checkIsUnit v).map (fun u => (u, lib, dictSet cache e v))
      | .error _ => do
          let lib2 ← synthAll lib (identsOf e)
          let v ← evalExpr false lib2 e
          let u ← checkIsUnit v
          .ok (u, lib2, dictSet cache e v)

/-- Mutable module state threaded through the loader: the registry and the
expression cache. -/
structure LoadState where
  lib : UnitLib
  cache : UCache
  deriving Repr, DecidableEq

/-- `add_offset_unit(name, baseunit, factor, offset, comment)`: resolve the
base-unit reference through `_find_unit` (the source passes the raw string,
which `eval` treats as an expression), build
`PhysicalUnit(baseunit._names, baseunit._factor * factor, baseunit._powers,
offset)`, `set_name`, run the same factor/powers duplicate check as
`add_unit`, and assign into the table. -/
def add_offset_unit (st : LoadState) (name : String) (baseRef : UExpr)
    (factor offs : ℚ) : Except UnitsError LoadState := do
  let (bu, lib1, cache1) ← find_unit st.lib st.cache baseRef
  let u := (PhysicalUnit.mk bu.names (bu.factor * factor) bu.powers offs).set_name name
  match dictGet lib1.unitTable name with
  | some old =>
      if old.factor ≠ u.factor ∨ old.powers ≠ u.powers then
        .error .duplicateUnitConflict
      else .ok ⟨{ lib1 with unitTable := dictSet lib1.unitTable name u }, cache1⟩
  | none => .ok ⟨{ lib1 with unitTable := dictSet lib1.unitTable name u }, cache1⟩

/-- A raw definition record of the `units` section after field splitting: a
two-field `name = expression, comment` record or a four-field
`name = factor, baseunit, offset, comment` affine record. Records with any
other field count raise `InvalidDefinitionFormat` during splitting, before
this representation exists, so that error has no constructor here. The
retry pass of `_update_library` unpacks its stored affine tuples with the
`factor` and `baseunit` positions swapped and then also calls
`add_offset_unit` with those two arguments swapped, so the two slips cancel
and both passes invoke `add_offset_unit(name, baseunit, factor, offset)`. -/
inductive RawRecord where
  | expr (name : String) (rhs : UExpr) (comment : String)
  | affine (name : String) (factor : ℚ) (baseRef : UExpr) (offs : ℚ)
      (comment : String)
  deriving Repr, DecidableEq

/-- Name of a record, the field reported by `UnresolvedUnits`. -/
def RawRecord.rname : RawRecord → String
  | .expr n _ _ => n
  | .affine n _ _ _ _ => n

/-- Resolution attempt for one record: expression records evaluate the
right-hand side with `pi` in scope and register via `add_unit`; affine
records go through `add_offset_unit`. -/
def attemptRecord (st : LoadState) : RawRecord → Except UnitsError LoadState
  | .expr name rhs _ => do
      let v ← evalExpr true st.lib rhs
      let u ← checkIsUnit v
      let lib2 ← add_unit st.lib name u
      .ok ⟨lib2, st.cache⟩
  | .affine name factor baseRef offs _ =>
      add_offset_unit st name baseRef factor offs

/-- One pass of `_update_library` over a list of records: each record is
attempted; a `NameError` (and only a `NameError`) defers the record into
the returned retry list; any other exception propagates and aborts the
load. The first pass and every retry pass share this logic. The source
keeps the deferred records in a Python set and iterates a copy of it in
unspecified order; the model keeps the records' list order, fixing one
admissible iteration order (resolution is monotone — the registry only
grows — so the reachable fixed point does not depend on the order, only
the number of passes can). -/
def loadPass (st : LoadState) :
    List RawRecord → Except UnitsError (LoadState × List RawRecord)
  | [] => .ok (st, [])
  | r :: rs =>
      match attemptRecord st r with
      | .ok st2 => loadPass st2 rs
      | .error .nameError =>
          (loadPass st rs).map (fun p => (p.1, r :: p.2))
      | .error e => .error e

/-- The fixed-point retry loop of `_update_library`: repeat full passes
over the retry set while a pass still makes progress (the source compares
the failure count of consecutive passes, which equals comparing the retry
set's size, since a pass's failures are exactly the records it keeps); when
a pass resolves nothing and records remain, fail with `UnresolvedUnits`
listing their names; when the set empties, succeed. -/
def retryLoop (st : LoadState) (retry : List RawRecord) :
    Except UnitsError LoadState :=
  if retry.isEmpty then .ok st
  else
    match h : loadPass st retry with
    | .error e => .error e
    | .ok (st2, kept) =>
        if hl : kept.length = retry.length then
          .error (.unresolvedUnits (kept.map RawRecord.rname))
        else retryLoop st2 kept
termination_by retry.length
decreasing_by
  have key : ∀ (rs : List RawRecord) (s s2 : LoadState) (kept2 : List RawRecord),
      loadPass s rs = .ok (s2, kept2) → kept2.length ≤ rs.length := by
    intro rs
    induction rs with
    | nil =>
      intro s s2 kept2 hp
      simp [loadPass] at hp
      simp [hp.2]
    | cons r rest ih =>
      intro s s2 kept2 hp
      rw [loadPass] at hp
      cases hr : attemptRecord s r with
      | ok s3 =>
        rw [hr] at hp
        exact Nat.le_succ_of_le (ih _ _ _ hp)
      | error e =>
        rw [hr] at hp
        cases e <;> try cases hp
        case nameError =>
          simp only [Except.map] at hp
          cases hrec : loadPass s rest with
          | ok p =>
            rw [hrec] at hp
            simp at hp
            rcases hp with ⟨hp1, hp2⟩
            subst hp2
            simpa using Nat.succ_le_succ (ih _ _ _ hrec)
          | error e2 => rw [hrec] at hp; cases hp
  exact Nat.lt_of_le_of_ne (key retry st st2 kept h) hl

/-- `_update_library`: the first pass over the record list collects the
retry set, then the fixed-point retry loop runs it to quiescence. -/
def updateLibrary (st : LoadState) (records : List RawRecord) :
    Except UnitsError LoadState := do
  let (st1, retry) ← loadPass st records
  retryLoop st1 retry

/-- Final lines of `convert_units` once both expressions are resolved to
units (resolution itself is `_find_unit`, modelled above):
`(factor, offset) = old.conversion_tuple_to(new); (val + offset) * factor`. -/
def convertUnitsResolved (old_unit new_unit : PhysicalUnit) (val : ℚ) :
    Except UnitsError ℚ :=
  (PhysicalUnit.conversion_tuple_to old_unit new_unit).map
    (fun fo => (val + fo.2) * fo.1)

/-! Helper lemmas about the dictionary model, shared by several claim
proofs below. -/

theorem dictGet_map_update {α β : Type} [DecidableEq α]
    (l : List (α × β)) (k : α) (v : β) (h : (dictGet l k).isSome) :
    dictGet (l.map (fun p => if p.1 = k then (k, v) else p)) k = some v := by
  induction l with
  | nil => simp [dictGet] at h
  | cons p rest ih =>
    by_cases hp : p.1 = k
    · simp [dictGet, hp]
    · simp [dictGet, hp] at h ⊢
      exact ih h

theorem dictGet_none_append {α β : Type} [DecidableEq α]
    (l : List (α × β)) (k : α) (v : β) (h : dictGet l k = none) :
    dictGet (l ++ [(k, v)]) k = some v := by
  induction l with
  | nil => simp [dictGet]
  | cons p rest ih =>
    by_cases hp : p.1 = k
    · simp [dictGet, hp] at h
    · simp [dictGet, hp] at h ⊢
      exact ih h

theorem dictGet_dictSet_self {α β : Type} [DecidableEq α]
    (l : List (α × β)) (k : α) (v : β) :
    dictGet (dictSet l k v) k = some v := by
  unfold dictSet
  by_cases h : (dictGet l k).isSome
  · simp only [h, if_true]
    exact dictGet_map_update l k v h
  · simp only [h, if_false]
    exact dictGet_none_append l k v (Option.not_isSome_iff_eq_none.mp h)

theorem dictGet_none_map_id {α β : Type} [DecidableEq α]
    (l : List (α × β)) (k : α) (v : β) (h : dictGet l k = none) :
    l.map (fun p => if p.1 = k then (k, v) else p) = l := by
  induction l with
  | nil => simp
  | cons p rest ih =>
    by_cases hp : p.1 = k
    · simp [dictGet, hp] at h
    · simp [dictGet, hp] at h ⊢
      exact ih h

theorem dictSet_dictSet_self {α β : Type} [DecidableEq α]
    (l : List (α × β)) (k : α) (v : β) :
    dictSet (dictSet l k v) k v = dictSet l k v := by
  have hstep : dictSet (dictSet l k v) k v
      = (dictSet l k v).map (fun p => if p.1 = k then (k, v) else p) := by
    rw [dictSet, dictGet_dictSet_self l k v]
    simp
  rw [hstep]
  by_cases h : (dictGet l k).isSome
  · rw [dictSet, if_pos h, List.map_map]
    apply List.map_congr_left
    intro p _
    by_cases hp : p.1 = k <;> simp [hp, Function.comp]
  · have hnone := Option.not_isSome_iff_eq_none.mp h
    rw [dictSet, if_neg h, List.map_append, dictGet_none_map_id l k v hnone]
    simp

/-- Bridge between the Python modulo test `x % k == 0` of the model and its
mathematical meaning: for a nonzero integer divisor it holds exactly when
`x` is an integer multiple of `k`. -/
theorem qIsMultiple_iff (x : ℚ) (k : ℤ) (hk : k ≠ 0) :
    qIsMultiple x k = true ↔ ∃ m : ℤ, x = m * k := by
  unfold qIsMultiple
  rw [beq_iff_eq]
  have hknz : (k : ℚ) ≠ 0 := Int.cast_ne_zero.mpr hk
  constructor
  · intro h
    refine ⟨(x / (k : ℚ)).num, ?_⟩
    have hden : ((x / (k : ℚ)).num : ℚ) = x / (k : ℚ) := by
      rw [← Rat.den_eq_one_iff]
      exact h
    rw [hden]
    field_simp
  · rintro ⟨m, rfl⟩
    rw [mul_div_assoc, div_self hknz, mul_one]
    exact Rat.den_intCast m

unseal Rat.add Rat.mul Rat.sub Rat.inv in
/-- C2 (counterexample): the claim
"`is_angle(a)` is true iff the entry of `powers` at the angle index equals
1 and every other entry is 0" is false on the code: the unit
`m*rad/s` (powers `[1, 0, -1, 0, 1]` with angle at index 4) satisfies
`is_angle` — entry 1 at the angle index and total sum 1 — although its
length entry (index 0, not the angle index) is 1, not 0. -/
theorem c2_is_angle_counterexample :
    is_angle
        ⟨["m", "kg", "s", "degK", "rad"],
         [("length", 0), ("mass", 1), ("time", 2), ("temperature", 3), ("angle", 4)],
         [], []⟩
        ⟨[("m", 1), ("s", -1), ("rad", 1)], 1, [1, 0, -1, 0, 1], 0⟩ = true ∧
    ¬ (∀ j : ℕ, j < 5 → j ≠ 4 →
          ([(1 : ℚ), 0, -1, 0, 1].getD j 0 = 0)) := by
  constructor
  · decide
  · intro hall
    have h0 := hall 0 (by decide) (by decide)
    norm_num at h0

/-- C2 (amended): `is_angle(a)` returns true iff the entry of `powers` at
the registered angle base-dimension index equals 1 and the SUM of all
entries of `powers` equals 1 (the code tests the sum, not that every other
entry vanishes). -/
theorem c2_is_angle_amended (lib : UnitLib) (u : PhysicalUnit) (i : ℕ)
    (hi : dictGet lib.baseTypes "angle" = some i)
    (hlen : i < u.powers.length) :
    is_angle lib u = true ↔ (u.powers.getD i 0 = 1 ∧ u.powers.sum = 1) := by
  rw [is_angle, hi]
  simp

unseal Rat.add Rat.mul Rat.sub Rat.inv in
/-- Witness for C2 (amended) at the angle base unit itself. -/
theorem c2_is_angle_amended_witness :
    is_angle
        ⟨["m", "kg", "s", "degK", "rad"],
         [("length", 0), ("mass", 1), ("time", 2), ("temperature", 3), ("angle", 4)],
         [], []⟩
        ⟨[("rad", 1)], 1, [0, 0, 0, 0, 1], 0⟩ = true :=
  (c2_is_angle_amended
      ⟨["m", "kg", "s", "degK", "rad"],
       [("length", 0), ("mass", 1), ("time", 2), ("temperature", 3), ("angle", 4)],
       [], []⟩
      ⟨[("rad", 1)], 1, [0, 0, 0, 0, 1], 0⟩ 4
      (by decide) (by decide)).mpr (by decide)

unseal Rat.add Rat.mul Rat.sub Rat.inv in
/-- C5 (counterexample): the claim that the scalar-by-unit reciprocal form
of divide fails with `IncompatibleOperation` on a nonzero-offset operand is
false on the code: `__rdiv__` performs no offset check, so `2 / degC`
(offset 273.15) succeeds. -/
theorem c5_rdiv_offset_counterexample :
    (PhysicalUnit.rdiv 2
        ⟨[("degC", 1)], 1, [0, 0, 0, 1, 0], 27315 / 100⟩).isOk = true ∧
    (27315 / 100 : ℚ) ≠ 0 := by
  constructor
  · decide
  · norm_num

/-- C5 (amended): multiply (unit-unit and unit-scalar), divide (unit-unit
and unit-scalar) and power all fail with `IncompatibleOperation` when a
unit operand has nonzero offset, but the scalar-by-unit reciprocal form of
divide performs no offset check and succeeds (whenever the factor is
nonzero, division by it being defined). -/
theorem c5_offset_amended :
    (∀ a b : PhysicalUnit, a.offset ≠ 0 ∨ b.offset ≠ 0 →
        PhysicalUnit.mul a b = .error .incompatibleOperation ∧
        PhysicalUnit.div a b = .error .incompatibleOperation) ∧
    (∀ (a : PhysicalUnit) (c : ℚ) (bn : List String) (e : PyNum),
        a.offset ≠ 0 →
        PhysicalUnit.mulScalar a c = .error .incompatibleOperation ∧
        PhysicalUnit.divScalar a c = .error .incompatibleOperation ∧
        PhysicalUnit.pow bn a e = .error .incompatibleOperation) ∧
    (∀ (c : ℚ) (a : PhysicalUnit), a.offset ≠ 0 → a.factor ≠ 0 →
        (PhysicalUnit.rdiv c a).isOk = true) := by
  refine ⟨fun a b h => ⟨?_, ?_⟩, fun a c bn e h => ⟨?_, ?_, ?_⟩,
          fun c a _ h => ?_⟩
  · rw [PhysicalUnit.mul, if_pos h]
  · rw [PhysicalUnit.div, if_pos h]
  · rw [PhysicalUnit.mulScalar, if_pos h]
  · rw [PhysicalUnit.divScalar, if_pos h]
  · rw [PhysicalUnit.pow.eq_def, if_pos h]
  · rw [PhysicalUnit.rdiv, if_neg h]
    rfl

/-- Witness for C5 (amended): a degC-like unit with offset 273.15 is
rejected by multiply and accepted by the reciprocal form. -/
theorem c5_offset_amended_witness :
    PhysicalUnit.mul
        ⟨[("degC", 1)], 1, [0, 0, 0, 1, 0], 27315 / 100⟩
        ⟨[("m", 1)], 1, [1, 0, 0, 0, 0], 0⟩ = .error .incompatibleOperation ∧
    (PhysicalUnit.rdiv 3
        ⟨[("degC", 1)], 1, [0, 0, 0, 1, 0], 27315 / 100⟩).isOk = true := by
  refine ⟨(c5_offset_amended.1 _ _ (Or.inl ?_)).1,
          c5_offset_amended.2.2 3 _ ?_ ?_⟩ <;> norm_num

unseal Rat.add Rat.mul Rat.sub Rat.inv in
/-- C6 (counterexample): the claim that `conversion_tuple_to(a, b)`
returns the pair `(scale, shift)` whenever the powers vectors agree is
false on the code at zero factors: with equal powers and `b.factor = 0`
the line `factor = self._factor / other._factor` raises
`ZeroDivisionError` instead of returning a pair (and such units are
reachable, e.g. the expression `0*m` registers factor 0). -/
theorem c6_zero_factor_counterexample :
    PhysicalUnit.is_compatible
        ⟨[("m", 1)], 1, [1, 0, 0, 0, 0], 0⟩
        ⟨[("zm", 1)], 0, [1, 0, 0, 0, 0], 0⟩ = true ∧
    PhysicalUnit.conversion_tuple_to
        ⟨[("m", 1)], 1, [1, 0, 0, 0, 0], 0⟩
        ⟨[("zm", 1)], 0, [1, 0, 0, 0, 0], 0⟩ = .error .zeroDivisionError := by
  constructor
  · rfl
  · rfl

/-- C6 (amended): `conversion_tuple_to(a, b)` fails with
`IncompatibleOperation` when the powers vectors differ; with equal powers
a zero factor raises `ZeroDivisionError` (`b`'s factor is divided by
first, so it raises first); and when both factors are nonzero it returns
`(scale, shift)` with `scale = a.factor / b.factor` and
`shift = a.offset - b.offset * b.factor / a.factor`, and
`(x + shift) * scale` maps any value from `a`'s unit to `b`'s unit in the
base-value semantics the source documents. -/
theorem c6_conversion_tuple (a b : PhysicalUnit) :
    (a.powers ≠ b.powers →
        PhysicalUnit.conversion_tuple_to a b = .error .incompatibleOperation) ∧
    (a.powers = b.powers →
        (b.factor = 0 →
            PhysicalUnit.conversion_tuple_to a b = .error .zeroDivisionError) ∧
        (b.factor ≠ 0 → a.factor = 0 →
            PhysicalUnit.conversion_tuple_to a b = .error .zeroDivisionError) ∧
        (a.factor ≠ 0 → b.factor ≠ 0 →
            PhysicalUnit.conversion_tuple_to a b =
              .ok (a.factor / b.factor,
                   a.offset - b.offset * b.factor / a.factor) ∧
            ∀ x : ℚ,
              toBaseValue b
                  ((x + (a.offset - b.offset * b.factor / a.factor)) *
                    (a.factor / b.factor)) = toBaseValue a x)) := by
  constructor
  · intro h
    rw [PhysicalUnit.conversion_tuple_to, if_pos h]
  · intro h
    refine ⟨?_, ?_, ?_⟩
    · intro hb
      rw [PhysicalUnit.conversion_tuple_to, if_neg (by simp [h]), if_pos hb]
    · intro hb ha
      rw [PhysicalUnit.conversion_tuple_to, if_neg (by simp [h]), if_neg hb,
          if_pos ha]
    · intro ha hb
      constructor
      · rw [PhysicalUnit.conversion_tuple_to, if_neg (by simp [h]),
            if_neg hb, if_neg ha]
      · intro x
        unfold toBaseValue
        field_simp
        ring

/-- Witness for C6 (amended) at mm (factor 1/1000) and cm (factor 1/100). -/
theorem c6_conversion_tuple_witness :
    PhysicalUnit.conversion_tuple_to
        ⟨[("mm", 1)], 1 / 1000, [1, 0, 0, 0, 0], 0⟩
        ⟨[("cm", 1)], 1 / 100, [1, 0, 0, 0, 0], 0⟩ =
      .ok ((1 / 1000 : ℚ) / (1 / 100), 0 - 0 * (1 / 100) / (1 / 1000)) ∧
    toBaseValue ⟨[("cm", 1)], 1 / 100, [1, 0, 0, 0, 0], 0⟩
        ((3 + (0 - 0 * (1 / 100) / (1 / 1000))) * ((1 / 1000) / (1 / 100))) =
      toBaseValue ⟨[("mm", 1)], 1 / 1000, [1, 0, 0, 0, 0], 0⟩ 3 := by
  have h := c6_conversion_tuple
      ⟨[("mm", 1)], 1 / 1000, [1, 0, 0, 0, 0], 0⟩
      ⟨[("cm", 1)], 1 / 100, [1, 0, 0, 0, 0], 0⟩
  have h2 := (h.2 rfl).2.2 (by norm_num) (by norm_num)
  exact ⟨h2.1, h2.2 3⟩

/-- C7 (confirmed): for compatible units (equal powers, nonzero factors)
and any value `x`, converting `x` from `u` to `v` with the final lines of
`convert_units` and the result back from `v` to `u` returns exactly `x` in
exact arithmetic. -/
theorem c7_round_trip (u v : PhysicalUnit) (hp : u.powers = v.powers)
    (hu : u.factor ≠ 0) (hv : v.factor ≠ 0) (x : ℚ) :
    ∃ y : ℚ, convertUnitsResolved u v x = .ok y ∧
             convertUnitsResolved v u y = .ok x := by
  refine ⟨(x + (u.offset - v.offset * v.factor / u.factor)) *
            (u.factor / v.factor), ?_, ?_⟩
  · rw [convertUnitsResolved, PhysicalUnit.conversion_tuple_to,
        if_neg (by simp [hp]), if_neg hv, if_neg hu]
    rfl
  · rw [convertUnitsResolved, PhysicalUnit.conversion_tuple_to,
        if_neg (by simp [hp]), if_neg hu, if_neg hv]
    show Except.ok _ = Except.ok x
    congr 1
    field_simp
    ring

/-- Witness for C7: 3 mm to cm and back. -/
theorem c7_round_trip_witness :
    ∃ y : ℚ,
      convertUnitsResolved ⟨[("mm", 1)], 1 / 1000, [1, 0, 0, 0, 0], 0⟩
          ⟨[("cm", 1)], 1 / 100, [1, 0, 0, 0, 0], 0⟩ 3 = .ok y ∧
      convertUnitsResolved ⟨[("cm", 1)], 1 / 100, [1, 0, 0, 0, 0], 0⟩
          ⟨[("mm", 1)], 1 / 1000, [1, 0, 0, 0, 0], 0⟩ y = .ok 3 :=
  c7_round_trip ⟨[("mm", 1)], 1 / 1000, [1, 0, 0, 0, 0], 0⟩
    ⟨[("cm", 1)], 1 / 100, [1, 0, 0, 0, 0], 0⟩ rfl
    (by norm_num) (by norm_num) 3

/-- List version of the modulo bridge: the `all([x % rounded == 0 ...])`
test of `__pow__` holds exactly when every entry is an integer multiple. -/
theorem all_qIsMultiple_iff (l : List ℚ) (k : ℤ) (hk : k ≠ 0) :
    l.all (fun x => qIsMultiple x k) = true ↔ ∀ x ∈ l, ∃ m : ℤ, x = m * k := by
  rw [List.all_eq_true]
  constructor
  · intro h x hx
    exact (qIsMultiple_iff x k hk).mp (h x hx)
  · intro h x hx
    exact (qIsMultiple_iff x k hk).mpr (h x hx)

/-- Name-map version of the modulo bridge, for the
`all([x % rounded == 0 for x in self._names.values()])` test. -/
theorem all_names_qIsMultiple_iff (d : NumberDict) (k : ℤ) (hk : k ≠ 0) :
    d.all (fun kv => qIsMultiple kv.2 k) = true ↔
      ∀ kv ∈ d, ∃ m : ℤ, kv.2 = m * k := by
  rw [List.all_eq_true]
  constructor
  · intro h kv hkv
    exact (qIsMultiple_iff kv.2 k hk).mp (h kv hkv)
  · intro h kv hkv
    exact (qIsMultiple_iff kv.2 k hk).mpr (h kv hkv)

/-- On a zero-offset unit, `__pow__` with a float exponent is exactly the
float branch. -/
theorem pow_float_eq_powFloat (bn : List String) (a : PhysicalUnit) (q : ℚ)
    (h0 : a.offset = 0) :
    PhysicalUnit.pow bn a (.float q) = powFloat bn a q := by
  rw [PhysicalUnit.pow.eq_def, if_neg (by simp [h0])]

/-- Evaluation of the float branch when the reciprocal rounds to a nonzero
integer within tolerance and the factor exponentiation does not raise:
success is equivalent to the divisibility test on the powers, with the
exact result fields of the source. -/
theorem powFloat_eq (bn : List String) (a : PhysicalUnit) (q : ℚ)
    (hq : q ≠ 0) (hk0 : pyRound (1 / q) ≠ 0)
    (htol : |1 / q - (pyRound (1 / q) : ℚ)| < 1 / 10 ^ 10)
    (f : ℚ) (hfp : pyFloatPow a.factor q = .ok f) :
    powFloat bn a q =
      if a.powers.all (fun x => qIsMultiple x (pyRound (1 / q))) then
        .ok ⟨(if a.names.all (fun kv => qIsMultiple kv.2 (pyRound (1 / q))) then
                NumberDict.divBy a.names ((pyRound (1 / q) : ℤ) : ℚ)
              else
                synthNames f
                  (a.powers.map (fun x => x / ((pyRound (1 / q) : ℤ) : ℚ))) bn),
             f,
             a.powers.map (fun x => x / ((pyRound (1 / q) : ℤ) : ℚ)), 0⟩
      else .error .unsupportedExponent := by
  rw [powFloat, if_neg hq]
  simp only []
  rw [if_pos htol, if_neg hk0]
  by_cases hall : a.powers.all (fun x => qIsMultiple x (pyRound (1 / q))) = true
  · rw [if_pos hall, if_pos hall, hfp]
  · rw [if_neg hall, if_neg hall]

/-- Evaluation of the float branch when the reciprocal rounds to a nonzero
integer within tolerance, the divisibility test on the powers passes, and
the factor exponentiation raises (`0.0 ** negative` or
`negative ** fractional`): the raise propagates. -/
theorem powFloat_raises (bn : List String) (a : PhysicalUnit) (q : ℚ)
    (hq : q ≠ 0) (hk0 : pyRound (1 / q) ≠ 0)
    (htol : |1 / q - (pyRound (1 / q) : ℚ)| < 1 / 10 ^ 10)
    (hall : a.powers.all (fun x => qIsMultiple x (pyRound (1 / q))) = true)
    (e : UnitsError) (hfp : pyFloatPow a.factor q = .error e) :
    powFloat bn a q = .error e := by
  rw [powFloat, if_neg hq]
  simp only []
  rw [if_pos htol, if_neg hk0, if_pos hall, hfp]

/-- Evaluation of the float branch when the reciprocal rounds to a nonzero
integer within tolerance but some power fails the divisibility test: the
unsupported-exponent `TypeError`, regardless of the factor. -/
theorem powFloat_odd_fail (bn : List String) (a : PhysicalUnit) (q : ℚ)
    (hq : q ≠ 0) (hk0 : pyRound (1 / q) ≠ 0)
    (htol : |1 / q - (pyRound (1 / q) : ℚ)| < 1 / 10 ^ 10)
    (hnot : ¬ (a.powers.all (fun x => qIsMultiple x (pyRound (1 / q))) = true)) :
    powFloat bn a q = .error .unsupportedExponent := by
  rw [powFloat, if_neg hq]
  simp only []
  rw [if_pos htol, if_neg hk0, if_neg hnot]

/-- Evaluation of the float branch when the rounded reciprocal misses the
tolerance: the unsupported-exponent `TypeError`. -/
theorem powFloat_tol_fail (bn : List String) (a : PhysicalUnit) (q : ℚ)
    (hq : q ≠ 0)
    (htol : ¬ (|1 / q - (pyRound (1 / q) : ℚ)| < 1 / 10 ^ 10)) :
    powFloat bn a q = .error .unsupportedExponent := by
  rw [powFloat, if_neg hq]
  simp only []
  rw [if_neg htol]

unseal Rat.add Rat.mul Rat.sub Rat.inv in
/-- C3 (counterexample): the claim that `power(a, 0.5)` on a zero-offset
unit with an odd powers entry "still succeeds, rendering a synthesized
name" is false on the code: on the metre (powers `[1, 0, 0, 0, 0]`) the
divisibility test `x % 2 == 0` fails and `__pow__` raises the
unsupported-exponent `TypeError`. -/
theorem c3_pow_half_odd_counterexample :
    PhysicalUnit.pow ["m", "kg", "s", "degK", "rad"]
        ⟨[("m", 1)], 1, [1, 0, 0, 0, 0], 0⟩ (.float (1 / 2)) =
      .error .unsupportedExponent := by
  rfl

unseal Rat.add Rat.mul Rat.sub Rat.inv in
/-- C3 (amended): `power(a, 0.5)` on a zero-offset unit with nonnegative
factor succeeds when every entry of the powers vector is even, and fails
with `UnsupportedExponent` when some entry is odd; with even powers but a
negative factor the square root of the factor raises instead (Python 2
`ValueError`); the synthesized-name rendering concerns the name map: when
every power is even, the factor is admissible, and some name-map exponent
is odd, the result carries the synthetic name built from the factor and
the base-dimension names. -/
theorem c3_pow_half_amended (bn : List String) (u : PhysicalUnit)
    (h0 : u.offset = 0) :
    ((∀ x ∈ u.powers, ∃ m : ℤ, x = m * 2) → 0 ≤ u.factor →
        (PhysicalUnit.pow bn u (.float (1 / 2))).isOk = true) ∧
    ((∃ x ∈ u.powers, ¬ ∃ m : ℤ, x = m * 2) →
        PhysicalUnit.pow bn u (.float (1 / 2)) = .error .unsupportedExponent) ∧
    ((∀ x ∈ u.powers, ∃ m : ℤ, x = m * 2) →
     (∃ kv ∈ u.names, ¬ ∃ m : ℤ, kv.2 = m * 2) → 0 ≤ u.factor →
        PhysicalUnit.pow bn u (.float (1 / 2)) =
          .ok ⟨synthNames (qPow u.factor (1 / 2))
                 (u.powers.map (fun x => x / 2)) bn,
               qPow u.factor (1 / 2), u.powers.map (fun x => x / 2), 0⟩) ∧
    ((∀ x ∈ u.powers, ∃ m : ℤ, x = m * 2) → u.factor < 0 →
        PhysicalUnit.pow bn u (.float (1 / 2)) = .error .unsupportedOperand) := by
  have hpf := pow_float_eq_powFloat bn u (1 / 2) h0
  have hk : pyRound (1 / (1 / 2 : ℚ)) = 2 := by norm_num [pyRound]
  have hk0 : pyRound (1 / (1 / 2 : ℚ)) ≠ 0 := by rw [hk]; norm_num
  have htol : |1 / (1 / 2 : ℚ) - (pyRound (1 / (1 / 2 : ℚ)) : ℚ)| < 1 / 10 ^ 10 := by
    rw [hk]; norm_num
  have hden : ((1 / 2 : ℚ)).den ≠ 1 := by decide
  have hsafe : 0 ≤ u.factor →
      pyFloatPow u.factor (1 / 2) = .ok (qPow u.factor (1 / 2)) := by
    intro hfge
    rw [pyFloatPow, if_neg (by norm_num),
        if_neg (fun hc => absurd hc.1 (not_lt.mpr hfge))]
  refine ⟨?_, ?_, ?_, ?_⟩
  · intro hdiv hfge
    have heq := powFloat_eq bn u (1 / 2) (by norm_num) hk0 htol _ (hsafe hfge)
    rw [hk] at heq
    have hall : u.powers.all (fun x => qIsMultiple x 2) = true :=
      (all_qIsMultiple_iff _ 2 (by norm_num)).mpr hdiv
    rw [hpf, heq, if_pos hall]
    rfl
  · intro hodd
    have hnot : ¬ (u.powers.all
        (fun x => qIsMultiple x (pyRound (1 / (1 / 2 : ℚ)))) = true) := by
      rw [hk]
      intro hall
      obtain ⟨x, hx, hnm⟩ := hodd
      exact hnm ((all_qIsMultiple_iff _ 2 (by norm_num)).mp hall x hx)
    rw [hpf, powFloat_odd_fail bn u (1 / 2) (by norm_num) hk0 htol hnot]
  · intro hdiv hoddname hfge
    have heq := powFloat_eq bn u (1 / 2) (by norm_num) hk0 htol _ (hsafe hfge)
    rw [hk] at heq
    have hc : (((2 : ℤ) : ℚ)) = 2 := by norm_num
    rw [hc] at heq
    have hall : u.powers.all (fun x => qIsMultiple x 2) = true :=
      (all_qIsMultiple_iff _ 2 (by norm_num)).mpr hdiv
    have hnall : ¬ (u.names.all (fun kv => qIsMultiple kv.2 2) = true) := by
      intro hall2
      obtain ⟨kv, hkv, hnm⟩ := hoddname
      exact hnm ((all_names_qIsMultiple_iff _ 2 (by norm_num)).mp hall2 kv hkv)
    rw [hpf, heq, if_pos hall, if_neg hnall]
  · intro hdiv hneg
    have hall : u.powers.all
        (fun x => qIsMultiple x (pyRound (1 / (1 / 2 : ℚ)))) = true := by
      rw [hk]
      exact (all_qIsMultiple_iff _ 2 (by norm_num)).mpr hdiv
    have hfpe : pyFloatPow u.factor (1 / 2) = .error .unsupportedOperand := by
      rw [pyFloatPow, if_neg (fun hc => absurd hc.1 (ne_of_lt hneg)),
          if_pos ⟨hneg, hden⟩]
    rw [hpf, powFloat_raises bn u (1 / 2) (by norm_num) hk0 htol hall _ hfpe]

unseal Rat.add Rat.mul Rat.sub Rat.inv in
/-- Witness for C3 (amended): the square metre (powers `[2, 0, 0, 0, 0]`)
has a square root under `power(·, 0.5)`. -/
theorem c3_pow_half_amended_witness :
    (PhysicalUnit.pow ["m", "kg", "s", "degK", "rad"]
        ⟨[("m", 2)], 1, [2, 0, 0, 0, 0], 0⟩ (.float (1 / 2))).isOk = true :=
  (c3_pow_half_amended ["m", "kg", "s", "degK", "rad"]
      ⟨[("m", 2)], 1, [2, 0, 0, 0, 0], 0⟩ rfl).1
    (by
      intro x hx
      fin_cases hx
      · exact ⟨1, by norm_num⟩
      · exact ⟨0, by norm_num⟩
      · exact ⟨0, by norm_num⟩
      · exact ⟨0, by norm_num⟩
      · exact ⟨0, by norm_num⟩)
    (by norm_num)

unseal Rat.add Rat.mul Rat.sub Rat.inv in
/-- C4 (counterexample): the claim restricts success to exponents whose
rounded reciprocal `k = round(1/n)` is a POSITIVE integer and says every
other fractional exponent fails with `UnsupportedExponent`; but the code
accepts a negative rounding too: at exponent `-0.5` (rounded reciprocal
`-2`) on the square metre, `__pow__` succeeds. -/
theorem c4_negative_k_counterexample :
    pyRound (1 / (-1 / 2 : ℚ)) = -2 ∧
    (PhysicalUnit.pow ["m", "kg", "s", "degK", "rad"]
        ⟨[("m", 2)], 1, [2, 0, 0, 0, 0], 0⟩ (.float (-1 / 2))).isOk = true := by
  constructor
  · decide
  · decide

/-- C4 (amended): for a zero-offset unit and a nonzero float exponent `n`
whose reciprocal rounds (half-up) to a NONZERO integer `k = round(1/n)` of
either sign within `|1/n - k| < 1e-10`, `power(a, n)` succeeds exactly
when every entry of `powers` is an integer multiple of `k` and the factor
exponentiation `a.factor ** n` is admissible, yielding factor
`a.factor ** n` (modelled by `qPow`) and powers divided by `k`, with names
divided by `k` when every name-map exponent is a multiple of `k` and
otherwise the synthetic name built from the resulting factor and the
base-dimension names weighted by the new powers; after the divisibility
test passes, a zero factor with negative `n` raises `ZeroDivisionError`
and a negative factor with fractional `n` raises the Python 2
`ValueError`; when the rounded reciprocal misses the tolerance the call
fails with `UnsupportedExponent`. (Exponent `0.0`, and the `k = 0`
tolerance corner on a nonempty unit, raise `ZeroDivisionError` instead —
hence the `n ≠ 0`, `k ≠ 0` hypotheses.) -/
theorem c4_pow_fractional_amended (bn : List String) (u : PhysicalUnit)
    (q : ℚ) (h0 : u.offset = 0) (hq : q ≠ 0)
    (hk0 : pyRound (1 / q) ≠ 0) :
    (|1 / q - (pyRound (1 / q) : ℚ)| < 1 / 10 ^ 10 →
       ((∀ x ∈ u.powers, ∃ m : ℤ, x = m * pyRound (1 / q)) →
          (¬ (u.factor = 0 ∧ q < 0) → ¬ (u.factor < 0 ∧ q.den ≠ 1) →
             ((∀ kv ∈ u.names, ∃ m : ℤ, kv.2 = m * pyRound (1 / q)) →
                 PhysicalUnit.pow bn u (.float q) =
                   .ok ⟨NumberDict.divBy u.names ((pyRound (1 / q) : ℤ) : ℚ),
                        qPow u.factor q,
                        u.powers.map
                          (fun x => x / ((pyRound (1 / q) : ℤ) : ℚ)), 0⟩) ∧
             ((∃ kv ∈ u.names, ¬ ∃ m : ℤ, kv.2 = m * pyRound (1 / q)) →
                 PhysicalUnit.pow bn u (.float q) =
                   .ok ⟨synthNames (qPow u.factor q)
                          (u.powers.map
                            (fun x => x / ((pyRound (1 / q) : ℤ) : ℚ))) bn,
                        qPow u.factor q,
                        u.powers.map
                          (fun x => x / ((pyRound (1 / q) : ℤ) : ℚ)), 0⟩)) ∧
          (u.factor = 0 ∧ q < 0 →
              PhysicalUnit.pow bn u (.float q) = .error .zeroDivisionError) ∧
          (u.factor < 0 ∧ q.den ≠ 1 →
              PhysicalUnit.pow bn u (.float q) = .error .unsupportedOperand)) ∧
       ((∃ x ∈ u.powers, ¬ ∃ m : ℤ, x = m * pyRound (1 / q)) →
          PhysicalUnit.pow bn u (.float q) = .error .unsupportedExponent)) ∧
    (¬ (|1 / q - (pyRound (1 / q) : ℚ)| < 1 / 10 ^ 10) →
       PhysicalUnit.pow bn u (.float q) = .error .unsupportedExponent) := by
  have hpf := pow_float_eq_powFloat bn u q h0
  constructor
  · intro htol
    constructor
    · intro hdiv
      have hall : u.powers.all (fun x => qIsMultiple x (pyRound (1 / q))) = true :=
        (all_qIsMultiple_iff _ _ hk0).mpr hdiv
      refine ⟨?_, ?_, ?_⟩
      · intro hnz1 hnz2
        have hfp : pyFloatPow u.factor q = .ok (qPow u.factor q) := by
          rw [pyFloatPow, if_neg hnz1, if_neg hnz2]
        have heq := powFloat_eq bn u q hq hk0 htol _ hfp
        constructor
        · intro hnames
          have hnall : u.names.all
              (fun kv => qIsMultiple kv.2 (pyRound (1 / q))) = true :=
            (all_names_qIsMultiple_iff _ _ hk0).mpr hnames
          rw [hpf, heq, if_pos hall, if_pos hnall]
        · intro hnames
          have hnall : ¬ (u.names.all
              (fun kv => qIsMultiple kv.2 (pyRound (1 / q))) = true) := by
            intro hall2
            obtain ⟨kv, hkv, hnm⟩ := hnames
            exact hnm ((all_names_qIsMultiple_iff _ _ hk0).mp hall2 kv hkv)
          rw [hpf, heq, if_pos hall, if_neg hnall]
      · rintro ⟨hf0, hqneg⟩
        have hfp : pyFloatPow u.factor q = .error .zeroDivisionError := by
          rw [pyFloatPow, if_pos ⟨hf0, hqneg⟩]
        rw [hpf, powFloat_raises bn u q hq hk0 htol hall _ hfp]
      · rintro ⟨hfneg, hqden⟩
        have hfp : pyFloatPow u.factor q = .error .unsupportedOperand := by
          rw [pyFloatPow, if_neg (fun hc => absurd hc.1 (ne_of_lt hfneg)),
              if_pos ⟨hfneg, hqden⟩]
        rw [hpf, powFloat_raises bn u q hq hk0 htol hall _ hfp]
    · intro hodd
      have hnot : ¬ (u.powers.all
          (fun x => qIsMultiple x (pyRound (1 / q))) = true) := by
        intro hall
        obtain ⟨x, hx, hnm⟩ := hodd
        exact hnm ((all_qIsMultiple_iff _ _ hk0).mp hall x hx)
      rw [hpf, powFloat_odd_fail bn u q hq hk0 htol hnot]
  · intro htol
    rw [hpf, powFloat_tol_fail bn u q hq htol]

unseal Rat.add Rat.mul Rat.sub Rat.inv in
/-- Witness for C4 (amended): `(m**2 with factor 4) ** 0.5` divides powers
and names by 2 and takes the square root of the factor. -/
theorem c4_pow_fractional_amended_witness :
    PhysicalUnit.pow ["m", "kg", "s", "degK", "rad"]
        ⟨[("m", 2)], 4, [2, 0, 0, 0, 0], 0⟩ (.float (1 / 2)) =
      .ok ⟨[("m", 1)], 2, [1, 0, 0, 0, 0], 0⟩ := by
  have hk : pyRound (1 / (1 / 2 : ℚ)) = 2 := by norm_num [pyRound]
  have hdiv : ∀ x ∈ ([(2 : ℚ), 0, 0, 0, 0] : List ℚ),
      ∃ m : ℤ, x = m * pyRound (1 / (1 / 2 : ℚ)) := by
    rw [hk]
    intro x hx
    fin_cases hx
    · exact ⟨1, by norm_num⟩
    · exact ⟨0, by norm_num⟩
    · exact ⟨0, by norm_num⟩
    · exact ⟨0, by norm_num⟩
    · exact ⟨0, by norm_num⟩
  have hnames : ∀ kv ∈ ([("m", (2 : ℚ))] : NumberDict),
      ∃ m : ℤ, kv.2 = m * pyRound (1 / (1 / 2 : ℚ)) := by
    rw [hk]
    intro kv hkv
    rw [List.mem_singleton] at hkv
    subst hkv
    exact ⟨1, by norm_num⟩
  have h := ((((c4_pow_fractional_amended ["m", "kg", "s", "degK", "rad"]
      ⟨[("m", 2)], 4, [2, 0, 0, 0, 0], 0⟩ (1 / 2) rfl (by norm_num)
      (by rw [hk]; norm_num)).1 (by rw [hk]; norm_num)).1 hdiv).1
      (by decide) (by decide)).1 hnames
  rw [h]
  rfl

/-- Evaluation of `add_unit` when the name is already registered. -/
theorem add_unit_some (lib : UnitLib) (name : String) (u0 old : PhysicalUnit)
    (h : dictGet lib.unitTable name = some old) :
    add_unit lib name u0 =
      if old.factor ≠ u0.factor ∨ old.powers ≠ u0.powers then
        .error .duplicateUnitConflict
      else
        .ok { lib with unitTable := dictSet lib.unitTable name (u0.set_name name) } := by
  rw [add_unit, h]
  rfl

/-- Evaluation of `add_unit` on a fresh name. -/
theorem add_unit_none (lib : UnitLib) (name : String) (u0 : PhysicalUnit)
    (h : dictGet lib.unitTable name = none) :
    add_unit lib name u0 =
      .ok { lib with unitTable := dictSet lib.unitTable name (u0.set_name name) } := by
  rw [add_unit, h]

/-- Reduction of monadic bind on a successful `Except`, used to step
through the loader. -/
theorem exceptOkBind {ε α β : Type} (a : α) (f : α → Except ε β) :
    (Except.ok a : Except ε α) >>= f = f a := rfl

/-- Evaluation of `add_offset_unit` when the base reference resolves and
the name is already registered. -/
theorem add_offset_unit_some (st : LoadState) (name : String) (baseRef : UExpr)
    (factor offs : ℚ) (bu : PhysicalUnit) (lib1 : UnitLib) (cache1 : UCache)
    (old : PhysicalUnit)
    (hfind : find_unit st.lib st.cache baseRef = .ok (bu, lib1, cache1))
    (hget : dictGet lib1.unitTable name = some old) :
    add_offset_unit st name baseRef factor offs =
      if old.factor ≠ bu.factor * factor ∨ old.powers ≠ bu.powers then
        .error .duplicateUnitConflict
      else
        .ok ⟨{ lib1 with
                 unitTable :=
                   dictSet lib1.unitTable name
                     ((PhysicalUnit.mk bu.names (bu.factor * factor)
                        bu.powers offs).set_name name) },
             cache1⟩ := by
  rw [add_offset_unit, hfind, exceptOkBind]
  simp only []
  rw [hget]
  rfl

/-- C8 (confirmed): redefining a registered name with a unit whose factor
and powers match the existing entry succeeds (and doing it twice is
idempotent — the table is unchanged by the second registration), while
redefining with a differing factor or powers fails with
`DuplicateUnitConflict`; this holds on both the expression path
(`add_unit`) and the affine path (`add_offset_unit`). -/
theorem c8_duplicate_policy :
    (∀ (lib : UnitLib) (name : String) (u old : PhysicalUnit),
        dictGet lib.unitTable name = some old →
        ((old.factor = u.factor ∧ old.powers = u.powers →
            ∃ lib2, add_unit lib name u = .ok lib2 ∧
                    add_unit lib2 name u = .ok lib2) ∧
         (¬ (old.factor = u.factor ∧ old.powers = u.powers) →
            add_unit lib name u = .error .duplicateUnitConflict))) ∧
    (∀ (st : LoadState) (name : String) (baseRef : UExpr) (factor offs : ℚ)
        (bu : PhysicalUnit) (lib1 : UnitLib) (cache1 : UCache)
        (old : PhysicalUnit),
        find_unit st.lib st.cache baseRef = .ok (bu, lib1, cache1) →
        dictGet lib1.unitTable name = some old →
        ((old.factor = bu.factor * factor ∧ old.powers = bu.powers →
            (add_offset_unit st name baseRef factor offs).isOk = true) ∧
         (¬ (old.factor = bu.factor * factor ∧ old.powers = bu.powers) →
            add_offset_unit st name baseRef factor offs =
              .error .duplicateUnitConflict))) := by
  constructor
  · intro lib name u old hget
    constructor
    · rintro ⟨hf, hp⟩
      have hcond : ¬ (old.factor ≠ u.factor ∨ old.powers ≠ u.powers) := by
        push_neg
        exact ⟨hf, hp⟩
      refine ⟨{ lib with unitTable := dictSet lib.unitTable name (u.set_name name) },
              ?_, ?_⟩
      · rw [add_unit_some lib name u old hget, if_neg hcond]
      · have hget2 : dictGet (dictSet lib.unitTable name (u.set_name name)) name
            = some (u.set_name name) := dictGet_dictSet_self _ _ _
        rw [add_unit_some
              { lib with unitTable := dictSet lib.unitTable name (u.set_name name) }
              name u (u.set_name name) hget2,
            if_neg (by simp [PhysicalUnit.set_name])]
        have hss := dictSet_dictSet_self lib.unitTable name (u.set_name name)
        show Except.ok _ = _
        rw [show dictSet (dictSet lib.unitTable name (u.set_name name)) name
              (u.set_name name) = dictSet lib.unitTable name (u.set_name name)
            from hss]
    · intro hne
      rw [add_unit_some lib name u old hget, if_pos (not_and_or.mp hne)]
  · intro st name baseRef factor offs bu lib1 cache1 old hfind hget
    constructor
    · rintro ⟨hf, hp⟩
      have hcond : ¬ (old.factor ≠ bu.factor * factor ∨ old.powers ≠ bu.powers) := by
        push_neg
        exact ⟨hf, hp⟩
      rw [add_offset_unit_some st name baseRef factor offs bu lib1 cache1 old
            hfind hget,
          if_neg hcond]
      rfl
    · intro hne
      rw [add_offset_unit_some st name baseRef factor offs bu lib1 cache1 old
            hfind hget,
          if_pos (not_and_or.mp hne)]

/-- Witness for C8 on the expression path: re-registering the metre with
identical factor and powers is accepted and idempotent; re-registering
with factor 2 is rejected. -/
theorem c8_duplicate_policy_witness :
    (∃ lib2,
        add_unit ⟨[], [], [], [("m", ⟨[("m", 1)], 1, [1, 0, 0, 0, 0], 0⟩)]⟩
            "m" ⟨[("m", 1)], 1, [1, 0, 0, 0, 0], 0⟩ = .ok lib2 ∧
        add_unit lib2 "m" ⟨[("m", 1)], 1, [1, 0, 0, 0, 0], 0⟩ = .ok lib2) ∧
    add_unit ⟨[], [], [], [("m", ⟨[("m", 1)], 1, [1, 0, 0, 0, 0], 0⟩)]⟩
        "m" ⟨[("m", 1)], 2, [1, 0, 0, 0, 0], 0⟩ =
      .error .duplicateUnitConflict :=
  ⟨(c8_duplicate_policy.1
      ⟨[], [], [], [("m", ⟨[("m", 1)], 1, [1, 0, 0, 0, 0], 0⟩)]⟩ "m"
      ⟨[("m", 1)], 1, [1, 0, 0, 0, 0], 0⟩
      ⟨[("m", 1)], 1, [1, 0, 0, 0, 0], 0⟩ rfl).1 ⟨rfl, rfl⟩,
   (c8_duplicate_policy.1
      ⟨[], [], [], [("m", ⟨[("m", 1)], 1, [1, 0, 0, 0, 0], 0⟩)]⟩ "m"
      ⟨[("m", 1)], 2, [1, 0, 0, 0, 0], 0⟩
      ⟨[("m", 1)], 1, [1, 0, 0, 0, 0], 0⟩ rfl).2 (by decide)⟩

/-- C10 (confirmed): the duplicate check compares only factor and powers,
never offset — redefining a registered name with matching factor and
powers but a different offset raises no error on either path, and the new
unit (with the new offset) silently replaces the old one in the table. -/
theorem c10_offset_ignored_in_duplicate_check :
    (∀ (lib : UnitLib) (name : String) (u old : PhysicalUnit),
        dictGet lib.unitTable name = some old →
        old.factor = u.factor → old.powers = u.powers → old.offset ≠ u.offset →
        ∃ lib2, add_unit lib name u = .ok lib2 ∧
          dictGet lib2.unitTable name = some (u.set_name name) ∧
          (u.set_name name).offset = u.offset) ∧
    (∀ (st : LoadState) (name : String) (baseRef : UExpr) (factor offs : ℚ)
        (bu : PhysicalUnit) (lib1 : UnitLib) (cache1 : UCache)
        (old : PhysicalUnit),
        find_unit st.lib st.cache baseRef = .ok (bu, lib1, cache1) →
        dictGet lib1.unitTable name = some old →
        old.factor = bu.factor * factor → old.powers = bu.powers →
        old.offset ≠ offs →
        ∃ st2, add_offset_unit st name baseRef factor offs = .ok st2 ∧
          dictGet st2.lib.unitTable name =
            some ((PhysicalUnit.mk bu.names (bu.factor * factor)
                     bu.powers offs).set_name name)) := by
  constructor
  · intro lib name u old hget hf hp _
    have hcond : ¬ (old.factor ≠ u.factor ∨ old.powers ≠ u.powers) := by
      push_neg
      exact ⟨hf, hp⟩
    refine ⟨{ lib with unitTable := dictSet lib.unitTable name (u.set_name name) },
            ?_, ?_, rfl⟩
    · rw [add_unit_some lib name u old hget, if_neg hcond]
    · exact dictGet_dictSet_self _ _ _
  · intro st name baseRef factor offs bu lib1 cache1 old hfind hget hf hp _
    have hcond : ¬ (old.factor ≠ bu.factor * factor ∨ old.powers ≠ bu.powers) := by
      push_neg
      exact ⟨hf, hp⟩
    refine ⟨⟨{ lib1 with
                 unitTable :=
                   dictSet lib1.unitTable name
                     ((PhysicalUnit.mk bu.names (bu.factor * factor)
                        bu.powers offs).set_name name) },
             cache1⟩, ?_, ?_⟩
    · rw [add_offset_unit_some st name baseRef factor offs bu lib1 cache1 old
            hfind hget,
          if_neg hcond]
    · exact dictGet_dictSet_self _ _ _

/-- Witness for C10 on the expression path: redefining a zero-offset
"degC" entry with the same factor and powers but offset 273.15 is accepted
and the stored entry now carries the new offset. -/
theorem c10_offset_ignored_witness :
    ∃ lib2,
      add_unit ⟨[], [], [], [("degC", ⟨[("degC", 1)], 1, [0, 0, 0, 1, 0], 0⟩)]⟩
          "degC" ⟨[("degK", 1)], 1, [0, 0, 0, 1, 0], 27315 / 100⟩ = .ok lib2 ∧
      dictGet lib2.unitTable "degC" =
        some ((⟨[("degK", 1)], 1, [0, 0, 0, 1, 0], 27315 / 100⟩ :
                 PhysicalUnit).set_name "degC") ∧
      ((⟨[("degK", 1)], 1, [0, 0, 0, 1, 0], 27315 / 100⟩ :
          PhysicalUnit).set_name "degC").offset = 27315 / 100 :=
  c10_offset_ignored_in_duplicate_check.1
    ⟨[], [], [], [("degC", ⟨[("degC", 1)], 1, [0, 0, 0, 1, 0], 0⟩)]⟩ "degC"
    ⟨[("degK", 1)], 1, [0, 0, 0, 1, 0], 27315 / 100⟩
    ⟨[("degC", 1)], 1, [0, 0, 0, 1, 0], 0⟩ rfl rfl rfl (by norm_num)

/-- Reduction of `Except.bind` on a success value. -/
theorem exceptBindOk {ε α β : Type} (a : α) (f : α → Except ε β) :
    Except.bind (Except.ok a) f = f a := rfl

/-- Unknown identifiers evaluate to a `NameError` (there is no `pi` in the
`_find_unit` eval globals). -/
theorem evalExpr_ident_none (lib : UnitLib) (t : String)
    (ht : dictGet lib.unitTable t = none) :
    evalExpr false lib (.ident t) = .error .nameError := by
  rw [evalExpr, ht]
  simp

/-- Known identifiers evaluate to their unit. -/
theorem evalExpr_ident_some (allowPi : Bool) (lib : UnitLib) (t : String)
    (u : PhysicalUnit) (ht : dictGet lib.unitTable t = some u) :
    evalExpr allowPi lib (.ident t) = .ok (.unit u) := by
  rw [evalExpr, ht]

/-- Evaluation of the token-synthesis step on a successful 1-character
prefix split. -/
theorem synthToken_split1 (lib : UnitLib) (t : String) (m : ℚ)
    (su : PhysicalUnit)
    (ht : dictGet lib.unitTable t = none)
    (hm : dictGet lib.prefixes (strTake t 1) = some m)
    (hsu : dictGet lib.unitTable (strDrop t 1) = some su)
    (h0 : su.offset = 0) :
    synthToken lib t =
      .ok { lib with
              unitTable :=
                dictSet lib.unitTable t
                  ((⟨NumberDict.add su.names [(floatStr m, 1)], su.factor * m,
                     su.powers, su.offset * m⟩ : PhysicalUnit).set_name t) } := by
  rw [synthToken, evalExpr_ident_none lib t ht]
  simp only []
  rw [hm, hsu]
  simp only []
  rw [PhysicalUnit.mulScalar, if_neg (by simp [h0]), exceptBindOk,
      add_unit_none lib t _ ht]

/-- Evaluation of the token-synthesis step on a successful 2-character
prefix split, reached only when the 1-character split fails. -/
theorem synthToken_split2 (lib : UnitLib) (t : String) (m : ℚ)
    (su : PhysicalUnit)
    (ht : dictGet lib.unitTable t = none)
    (hfail1 : dictGet lib.prefixes (strTake t 1) = none ∨
              dictGet lib.unitTable (strDrop t 1) = none)
    (hm : dictGet lib.prefixes (strTake t 2) = some m)
    (hsu : dictGet lib.unitTable (strDrop t 2) = some su)
    (h0 : su.offset = 0) :
    synthToken lib t =
      .ok { lib with
              unitTable :=
                dictSet lib.unitTable t
                  ((⟨NumberDict.add su.names [(floatStr m, 1)], su.factor * m,
                     su.powers, su.offset * m⟩ : PhysicalUnit).set_name t) } := by
  rw [synthToken, evalExpr_ident_none lib t ht]
  simp only []
  rcases hfail1 with h1 | h1
  · rw [h1]
    cases h2 : dictGet lib.unitTable (strDrop t 1) with
    | none =>
      simp only []
      rw [hm, hsu]
      simp only []
      rw [PhysicalUnit.mulScalar, if_neg (by simp [h0]), exceptBindOk,
          add_unit_none lib t _ ht]
    | some su1 =>
      simp only []
      rw [hm, hsu]
      simp only []
      rw [PhysicalUnit.mulScalar, if_neg (by simp [h0]), exceptBindOk,
          add_unit_none lib t _ ht]
  · rw [h1]
    cases h2 : dictGet lib.prefixes (strTake t 1) with
    | none =>
      simp only []
      rw [hm, hsu]
      simp only []
      rw [PhysicalUnit.mulScalar, if_neg (by simp [h0]), exceptBindOk,
          add_unit_none lib t _ ht]
    | some m1 =>
      simp only []
      rw [hm, hsu]
      simp only []
      rw [PhysicalUnit.mulScalar, if_neg (by simp [h0]), exceptBindOk,
          add_unit_none lib t _ ht]

/-- Evaluation of `_find_unit` on a single unknown token whose synthesis
step succeeds: the synthesized registry is consulted by the second `eval`,
the result is cached under the token and returned. -/
theorem find_unit_token_synth (lib : UnitLib) (cache : UCache) (t : String)
    (lib2 : UnitLib) (u2 : PhysicalUnit)
    (hc : dictGet cache (.ident t) = none)
    (ht : dictGet lib.unitTable t = none)
    (hst : synthToken lib t = .ok lib2)
    (hget2 : dictGet lib2.unitTable t = some u2) :
    find_unit lib cache (.ident t) =
      .ok (u2, lib2, dictSet cache (.ident t) (.unit u2)) := by
  rw [find_unit, hc]
  simp only []
  rw [evalExpr_ident_none lib t ht]
  simp only [identsOf]
  show (Except.bind (synthAll lib [t]) _) = _
  rw [show synthAll lib [t] = .ok lib2 by rw [synthAll, hst, exceptBindOk]; rfl,
      exceptBindOk]
  rw [show evalExpr false lib2 (.ident t) = .ok (.unit u2) from
        evalExpr_ident_some false lib2 t u2 hget2,
      exceptOkBind]
  rfl

/-- C9 (confirmed): resolving an unknown token that is the concatenation
of a registered prefix (multiplier `m`) and a registered zero-offset unit
(factor `f`) synthesizes and registers a new unit named after the whole
token with factor `m * f` and the suffix unit's powers; the 1-character
split is tried first, and the 2-character split applies when the
1-character split fails. -/
theorem c9_prefix_synthesis (lib : UnitLib) (cache : UCache) (t : String)
    (hc : dictGet cache (.ident t) = none)
    (ht : dictGet lib.unitTable t = none) :
    (∀ (m : ℚ) (su : PhysicalUnit),
        dictGet lib.prefixes (strTake t 1) = some m →
        dictGet lib.unitTable (strDrop t 1) = some su →
        su.offset = 0 →
        ∃ u2 lib2 cache2,
          find_unit lib cache (.ident t) = .ok (u2, lib2, cache2) ∧
          u2.factor = m * su.factor ∧
          u2.powers = su.powers ∧
          u2.names = [(t, 1)] ∧
          dictGet lib2.unitTable t = some u2) ∧
    (∀ (m : ℚ) (su : PhysicalUnit),
        (dictGet lib.prefixes (strTake t 1) = none ∨
         dictGet lib.unitTable (strDrop t 1) = none) →
        dictGet lib.prefixes (strTake t 2) = some m →
        dictGet lib.unitTable (strDrop t 2) = some su →
        su.offset = 0 →
        ∃ u2 lib2 cache2,
          find_unit lib cache (.ident t) = .ok (u2, lib2, cache2) ∧
          u2.factor = m * su.factor ∧
          u2.powers = su.powers ∧
          u2.names = [(t, 1)] ∧
          dictGet lib2.unitTable t = some u2) := by
  constructor
  · intro m su hm hsu h0
    have hst := synthToken_split1 lib t m su ht hm hsu h0
    have hget2 : dictGet
        ({ lib with
             unitTable :=
               dictSet lib.unitTable t
                 ((⟨NumberDict.add su.names [(floatStr m, 1)], su.factor * m,
                    su.powers, su.offset * m⟩ : PhysicalUnit).set_name t) } :
          UnitLib).unitTable t
        = some ((⟨NumberDict.add su.names [(floatStr m, 1)], su.factor * m,
                  su.powers, su.offset * m⟩ : PhysicalUnit).set_name t) :=
      dictGet_dictSet_self _ _ _
    exact ⟨_, _, _, find_unit_token_synth lib cache t _ _ hc ht hst hget2,
           mul_comm su.factor m, rfl, rfl, hget2⟩
  · intro m su hfail1 hm hsu h0
    have hst := synthToken_split2 lib t m su ht hfail1 hm hsu h0
    have hget2 : dictGet
        ({ lib with
             unitTable :=
               dictSet lib.unitTable t
                 ((⟨NumberDict.add su.names [(floatStr m, 1)], su.factor * m,
                    su.powers, su.offset * m⟩ : PhysicalUnit).set_name t) } :
          UnitLib).unitTable t
        = some ((⟨NumberDict.add su.names [(floatStr m, 1)], su.factor * m,
                  su.powers, su.offset * m⟩ : PhysicalUnit).set_name t) :=
      dictGet_dictSet_self _ _ _
    exact ⟨_, _, _, find_unit_token_synth lib cache t _ _ hc ht hst hget2,
           mul_comm su.factor m, rfl, rfl, hget2⟩

/-- Witness for C9: prefix `k ↦ 1000` and base unit `g` (factor 1) resolve
the unknown token `kg` to a registered unit of factor `1000 * 1` with
`g`'s powers. -/
theorem c9_prefix_synthesis_witness :
    ∃ u2 lib2 cache2,
      find_unit ⟨[], [], [("k", 1000)],
          [("g", ⟨[("g", 1)], 1, [0, 1, 0, 0, 0], 0⟩)]⟩ [] (.ident "kg") =
        .ok (u2, lib2, cache2) ∧
      u2.factor = 1000 * 1 ∧
      u2.powers = [0, 1, 0, 0, 0] ∧
      u2.names = [("kg", 1)] ∧
      dictGet lib2.unitTable "kg" = some u2 :=
  (c9_prefix_synthesis
      ⟨[], [], [("k", 1000)], [("g", ⟨[("g", 1)], 1, [0, 1, 0, 0, 0], 0⟩)]⟩
      [] "kg" (by decide) (by decide)).1 1000
    ⟨[("g", 1)], 1, [0, 1, 0, 0, 0], 0⟩ (by decide) (by decide) rfl

unseal Rat.add Rat.mul Rat.sub Rat.inv in
/-- C1 (code bug): the claim says forward references are deferred and
resolved by the retry passes for expression-based and affine records
alike; but an affine record whose base-unit reference is not yet defined
makes `_find_unit` raise `ValueError` (`UnknownUnit`), which the loader
does not catch (it defers only on `NameError`), so the load fails
immediately even though the referenced unit is defined by the very next
record. Concretely: the set `degC = 1.0, degCabs, 273.15` (affine)
followed by `degCabs = degK` (expression) fails with
`UnknownUnit("degCabs")` instead of loading. -/
theorem c1_affine_forward_reference_fails :
    updateLibrary
      ⟨⟨["m", "kg", "s", "degK", "rad"],
        [("length", 0), ("mass", 1), ("time", 2), ("temperature", 3),
         ("angle", 4)],
        [("k", 1000)],
        [("m", ⟨[("m", 1)], 1, [1, 0, 0, 0, 0], 0⟩),
         ("kg", ⟨[("kg", 1)], 1, [0, 1, 0, 0, 0], 0⟩),
         ("s", ⟨[("s", 1)], 1, [0, 0, 1, 0, 0], 0⟩),
         ("degK", ⟨[("degK", 1)], 1, [0, 0, 0, 1, 0], 0⟩),
         ("rad", ⟨[("rad", 1)], 1, [0, 0, 0, 0, 1], 0⟩),
         ("unitless", ⟨[("unitless", 1)], 1, [0, 0, 0, 0, 0], 0⟩)]⟩, []⟩
      [.affine "degC" 1 (.ident "degCabs") (27315 / 100) "",
       .expr "degCabs" (.ident "degK") ""] =
      .error (.unknownUnit "degCabs") := by
  rfl

/-- Progress case of the fixed-point loop: when one more pass resolves
every remaining record, the loop succeeds with that pass's state. -/
theorem retryLoop_resolves (st : LoadState) (retry : List RawRecord)
    (st2 : LoadState) (hne : retry ≠ [])
    (h : loadPass st retry = .ok (st2, [])) :
    retryLoop st retry = .ok st2 := by
  rw [retryLoop]
  rw [if_neg (by simpa using hne)]
  split
  · next e he => rw [h] at he; cases he
  · next st3 kept3 he =>
    rw [h] at he
    injection he with he1
    injection he1 with ha hb
    subst ha
    subst hb
    rw [dif_neg (by simpa using (List.length_pos.mpr hne).ne)]
    rw [retryLoop]
    rfl

/-- Stuck case of the fixed-point loop: when a pass over a nonempty retry
set resolves nothing (keeps as many records as it was given), the loop
fails with `UnresolvedUnits` naming exactly the kept records. -/
theorem retryLoop_stuck (st st2 : LoadState) (retry kept : List RawRecord)
    (hne : retry ≠ [])
    (h : loadPass st retry = .ok (st2, kept))
    (hlen : kept.length = retry.length) :
    retryLoop st retry = .error (.unresolvedUnits (kept.map RawRecord.rname)) := by
  rw [retryLoop]
  rw [if_neg (by simpa using hne)]
  split
  · next e he => rw [h] at he; cases he
  · next st3 kept3 he =>
    rw [h] at he
    injection he with he1
    injection he1 with ha hb
    subst ha
    subst hb
    rw [dif_pos hlen]

unseal Rat.add Rat.mul Rat.sub Rat.inv in
/-- Supporting fact for C1: on the expression path the deferral does work —
a set where `degA` is defined in terms of the not-yet-defined `degB`, and
`degB` afterwards, loads successfully, with `degA` registered on the retry
pass. -/
theorem loader_expression_forward_reference_resolves :
    ∃ st2,
      updateLibrary ⟨⟨[], [], [], [("degK", ⟨[("degK", 1)], 1, [1], 0⟩)]⟩, []⟩
        [.expr "degA" (.ident "degB") "",
         .expr "degB" (.ident "degK") ""] = .ok st2 ∧
      dictGet st2.lib.unitTable "degA" = some ⟨[("degA", 1)], 1, [1], 0⟩ := by
  refine ⟨⟨⟨[], [], [],
            [("degK", ⟨[("degK", 1)], 1, [1], 0⟩),
             ("degB", ⟨[("degB", 1)], 1, [1], 0⟩),
             ("degA", ⟨[("degA", 1)], 1, [1], 0⟩)]⟩, []⟩, ?_, by decide⟩
  rw [show updateLibrary ⟨⟨[], [], [], [("degK", ⟨[("degK", 1)], 1, [1], 0⟩)]⟩, []⟩
        [.expr "degA" (.ident "degB") "", .expr "degB" (.ident "degK") ""]
      = retryLoop
          ⟨⟨[], [], [],
            [("degK", ⟨[("degK", 1)], 1, [1], 0⟩),
             ("degB", ⟨[("degB", 1)], 1, [1], 0⟩)]⟩, []⟩
          [.expr "degA" (.ident "degB") ""] from rfl]
  apply retryLoop_resolves
  · simp
  · rfl

unseal Rat.add Rat.mul Rat.sub Rat.inv in
/-- Supporting fact for C1: an unsatisfiable expression reference is kept
through a no-progress pass and reported by `UnresolvedUnits` with exactly
the stuck definition's name. -/
theorem loader_unresolved_reports_names :
    updateLibrary ⟨⟨[], [], [], [("degK", ⟨[("degK", 1)], 1, [1], 0⟩)]⟩, []⟩
      [.expr "degA" (.ident "nope") ""] =
      .error (.unresolvedUnits ["degA"]) := by
  rw [show updateLibrary ⟨⟨[], [], [], [("degK", ⟨[("degK", 1)], 1, [1], 0⟩)]⟩, []⟩
        [.expr "degA" (.ident "nope") ""]
      = retryLoop ⟨⟨[], [], [], [("degK", ⟨[("degK", 1)], 1, [1], 0⟩)]⟩, []⟩
          [.expr "degA" (.ident "nope") ""] from rfl]
  exact retryLoop_stuck
    ⟨⟨[], [], [], [("degK", ⟨[("degK", 1)], 1, [1], 0⟩)]⟩, []⟩
    ⟨⟨[], [], [], [("degK", ⟨[("degK", 1)], 1, [1], 0⟩)]⟩, []⟩
    [.expr "degA" (.ident "nope") ""]
    [.expr "degA" (.ident "nope") ""]
    (by simp) rfl rfl
